import Mathlib

/-!
# Verification of the libri DHT client fragment

Shallow embedding of the parts of the `dannalieth/libri` repository that the
claims concern:

* the Store engine (`libri/librarian/server/store`), whose implementation is
  exercised by the tests in the repository fragment and is modelled here from
  the specification (§4.6 Store Engine, §4.4 RPC Client Shim);
* the signature-context helpers (`libri/librarian/client/context.go`),
  likewise modelled from the specification (§6.2 Request Signing) and their
  tests;
* `Author.Healthcheck` and `getEntryInfo` from `libri/author/author.go`;
* `newFilter` / `alwaysInFilter` from `libri/common/subscribe/filter.go`.

Machine integers are modelled as `Nat`; byte strings as `List Nat`; fallible
Go functions returning `(T, error)` become `Except String T` (or an explicit
pair when the zero value of `T` matters); gRPC metadata becomes an
association list.
-/

namespace Libri

/-! ## Store engine (spec §4.6)

Modelled from the spec: the implementation of `storer.Store` and the `Store`
state (`libri/librarian/server/store/store.go`, `storer.go`) is not part of
the repository fragment; only its tests are.  The model follows §4.6:
phase 1 runs Search in PEERS mode (modelled as a function from seeds to an
`Except`-valued list of closest peers); phase 2 initialises `unqueried` with
the returned peers and spawns up to `concurrency` workers issuing Store RPCs,
terminating when `nReplicas` confirmations have been received (Stored), when
errors reach `nMaxErrors` (Errored), or when the peer list is exhausted.

Concurrency is modelled by batched rounds: at the start of a round each of
the (up to `concurrency`) free workers checks the termination condition and
pops one peer from `unqueried`; the in-flight responses are then merged into
the result one at a time, as the per-lookup mutex serialises them.
-/

/-- Peers are identified abstractly by their id. -/
abbrev Peer := Nat

/-- Store parameters (spec §4.6): replication target, error budget and
worker-pool size. -/
structure Parameters where
  nReplicas : Nat
  nMaxErrors : Nat
  concurrency : Nat
deriving Repr, DecidableEq

/-- Store result state: peers that confirmed storage, peers not yet queried,
accumulated query errors, and any fatal error. -/
structure Result where
  responded : List Peer
  unqueried : List Peer
  errors : List String
  fatalErr : Option String
deriving Repr, DecidableEq

/-- `Store.Stored()`: at least `nReplicas` peers confirmed storage. -/
def Stored (p : Parameters) (r : Result) : Bool :=
  p.nReplicas ≤ r.responded.length

/-- `Store.Errored()`: the error budget is exhausted or a fatal error
occurred. -/
def Errored (p : Parameters) (r : Result) : Bool :=
  p.nMaxErrors ≤ r.errors.length || r.fatalErr.isSome

/-- `Store.Exhausted()`: no unqueried peers remain. -/
def Exhausted (r : Result) : Bool :=
  r.unqueried.isEmpty

/-- `Store.Finished()`: any of the three termination conditions holds. -/
def Finished (p : Parameters) (r : Result) : Bool :=
  Stored p r || Errored p r || Exhausted r

/-- The behaviour of one Store RPC to a given peer: `true` means the peer
confirmed storage, `false` means the query returned an error (e.g. a
timeout).  The mock queriers of the tests are instances: `TestStoreQuerier`
is `fun _ => true`, `timeoutQuerier` is `fun _ => false`. -/
abbrev StoreQuerier := Peer → Bool

/-- Merge one Store response into the result: a confirmation appends the
peer to `responded`; an error appends to `errors`. -/
def queryPeer (q : StoreQuerier) (r : Result) (p : Peer) : Result :=
  if q p then
    { r with responded := r.responded ++ [p] }
  else
    { r with errors := r.errors ++ ["query error"] }

/-- One round of the worker pool: up to `c` free workers each pop the next
peer from `unqueried`; their responses are then merged serially. -/
def storeRound (q : StoreQuerier) (c : Nat) (r : Result) : Result :=
  let popped := r.unqueried.take c
  let r1 := { r with unqueried := r.unqueried.drop c }
  popped.foldl (queryPeer q) r1

/-- The Store loop: workers run rounds until a termination condition is
observed.  `fuel` bounds the number of rounds; `unqueried.length` rounds
always suffice since every non-final round pops at least one peer. -/
def storeLoop (q : StoreQuerier) (p : Parameters) : Nat → Result → Result
  | 0, r => r
  | fuel + 1, r =>
    if Finished p r then r else storeLoop q p fuel (storeRound q p.concurrency r)

/-- `storer.Store(store, seeds)` (spec §4.6): run the wrapped Search on the
seeds; a Search error is surfaced to the caller.  Otherwise initialise
`unqueried` with the closest peers Search returned and run the Store loop;
the Errored/Stored/Exhausted outcome is carried in the returned result, and
the call itself succeeds. -/
def storerStore (search : List Peer → Except String (List Peer))
    (q : StoreQuerier) (p : Parameters) (seeds : List Peer) :
    Except String Result :=
  match search seeds with
  | .error e => .error e
  | .ok closest =>
    .ok (storeLoop q p closest.length
      { responded := [], unqueried := closest, errors := [], fatalErr := none })

/-! ## Store query (spec §4.4)

Modelled from the spec: `storer.query` (not in the repository fragment)
builds and signs a Store request carrying a fresh `request_id`, issues it
through the querier with a timeout, and on response verifies
`response.request_id == request.request_id`, failing with
`MismatchedRequestID` otherwise. -/

/-- A Store request: its fresh 32-byte `request_id`, modelled abstractly. -/
structure StoreRequest where
  requestId : Nat
deriving Repr, DecidableEq

/-- A Store response: the echoed `request_id`. -/
structure StoreResponse where
  requestId : Nat
deriving Repr, DecidableEq

/-- `storer.query`: sign the request (the signer may fail), send it (the
transport may fail), and verify the echoed request id.  A `none` response
paired with a `some` error models Go's `(nil, err)` return. -/
def storerQuery (signer : Except String String)
    (send : StoreRequest → Except String StoreResponse)
    (rq : StoreRequest) : Option StoreResponse × Option String :=
  match signer with
  | .error e => (none, some e)
  | .ok _ =>
    match send rq with
    | .error e => (none, some e)
    | .ok rp =>
      if rp.requestId = rq.requestId then (some rp, none)
      else (none, some "MismatchedRequestID")

/-! ### Lemmas about the Store loop -/

lemma queryPeer_of_true {q : StoreQuerier} (hq : ∀ p, q p = true) (r : Result)
    (p : Peer) : queryPeer q r p = { r with responded := r.responded ++ [p] } := by
  simp [queryPeer, hq p]

lemma foldl_queryPeer_of_true {q : StoreQuerier} (hq : ∀ p, q p = true) :
    ∀ (l : List Peer) (r : Result),
      l.foldl (queryPeer q) r = { r with responded := r.responded ++ l } := by
  intro l
  induction l with
  | nil => intro r; simp
  | cons p t ih =>
    intro r
    rw [List.foldl_cons, queryPeer_of_true hq, ih]
    simp

lemma storeRound_of_true {q : StoreQuerier} (hq : ∀ p, q p = true) (c : Nat)
    (r : Result) :
    storeRound q c r =
      { r with responded := r.responded ++ r.unqueried.take c,
               unqueried := r.unqueried.drop c } := by
  simp [storeRound, foldl_queryPeer_of_true hq]

lemma storeLoop_of_true {q : StoreQuerier} (hq : ∀ p, q p = true)
    (pr : Parameters) (hc : 1 ≤ pr.concurrency) (hm : 1 ≤ pr.nMaxErrors) :
    ∀ (fuel : Nat) (r : Result),
      r.errors = [] → r.fatalErr = none →
      pr.nReplicas ≤ r.responded.length + r.unqueried.length →
      r.unqueried.length ≤ fuel →
      (storeLoop q pr fuel r).errors = [] ∧
      (storeLoop q pr fuel r).fatalErr = none ∧
      Stored pr (storeLoop q pr fuel r) = true := by
  intro fuel
  induction fuel with
  | zero =>
    intro r he hf hn hlen
    have hu : r.unqueried = [] := List.length_eq_zero.mp (Nat.le_zero.mp hlen)
    rw [hu, List.length_nil, Nat.add_zero] at hn
    exact ⟨he, hf, by simp [storeLoop, Stored, hn]⟩
  | succ fuel ih =>
    intro r he hf hn hlen
    by_cases hfin : Finished pr r = true
    · rw [storeLoop, if_pos hfin]
      refine ⟨he, hf, ?_⟩
      have herr : Errored pr r = false := by
        simp [Errored, he, hf]
        omega
      have : Stored pr r = true ∨ Exhausted r = true := by
        simp [Finished, herr] at hfin
        tauto
      rcases this with hst | hex
      · exact hst
      · have hu : r.unqueried = [] := by
          simpa [Exhausted, List.isEmpty_iff] using hex
        rw [hu, List.length_nil, Nat.add_zero] at hn
        simp [Stored, hn]
    · rw [storeLoop, if_neg hfin]
      have hne : r.unqueried ≠ [] := by
        intro hu
        exact hfin (by simp [Finished, Exhausted, hu])
      have hpos : 1 ≤ r.unqueried.length := by
        cases hu : r.unqueried with
        | nil => exact absurd hu hne
        | cons a t => simp [hu]
      rw [storeRound_of_true hq]
      refine ih _ (by simpa using he) (by simpa using hf) ?_ ?_
      · simp only [List.length_append, List.length_take, List.length_drop]
        omega
      · simp only [List.length_drop]
        omega

lemma queryPeer_of_false {q : StoreQuerier} (hq : ∀ p, q p = false) (r : Result)
    (p : Peer) : queryPeer q r p = { r with errors := r.errors ++ ["query error"] } := by
  simp [queryPeer, hq p]

lemma storeRound_one_of_false {q : StoreQuerier} (hq : ∀ p, q p = false)
    (r : Result) (p : Peer) (t : List Peer) (hu : r.unqueried = p :: t) :
    storeRound q 1 r =
      { r with unqueried := t, errors := r.errors ++ ["query error"] } := by
  simp [storeRound, hu, queryPeer_of_false hq]

lemma storeLoop_of_false {q : StoreQuerier} (hq : ∀ p, q p = false)
    (pr : Parameters) (hcon : pr.concurrency = 1) :
    ∀ (fuel : Nat) (r : Result),
      r.fatalErr = none →
      r.responded.length < pr.nReplicas →
      r.errors.length ≤ pr.nMaxErrors →
      pr.nMaxErrors - r.errors.length ≤ fuel →
      pr.nMaxErrors - r.errors.length < r.unqueried.length →
      (storeLoop q pr fuel r).errors.length = pr.nMaxErrors ∧
      (storeLoop q pr fuel r).responded = r.responded ∧
      (storeLoop q pr fuel r).fatalErr = none ∧
      (storeLoop q pr fuel r).unqueried.length =
        r.unqueried.length - (pr.nMaxErrors - r.errors.length) := by
  intro fuel
  induction fuel with
  | zero =>
    intro r hf hresp herr hfuel hun
    have heq : r.errors.length = pr.nMaxErrors := by omega
    exact ⟨by simp [storeLoop, heq], by simp [storeLoop], by simp [storeLoop, hf],
      by simp [storeLoop]; omega⟩
  | succ fuel ih =>
    intro r hf hresp herr hfuel hun
    by_cases heq : r.errors.length = pr.nMaxErrors
    · have hfin : Finished pr r = true := by
        simp [Finished, Errored, heq]
      rw [storeLoop, if_pos hfin]
      exact ⟨heq, rfl, hf, by omega⟩
    · have hlt : r.errors.length < pr.nMaxErrors := by omega
      have hne : r.unqueried ≠ [] := by
        intro hu
        rw [hu] at hun
        simp at hun
      have hfin : Finished pr r = false := by
        simp [Finished, Stored, Errored, Exhausted, hf, List.isEmpty_iff, hne]
        omega
      rw [storeLoop, if_neg (by simp [hfin])]
      cases hu : r.unqueried with
      | nil => exact absurd hu hne
      | cons p t =>
        rw [hcon, storeRound_one_of_false hq r p t hu]
        have ht : pr.nMaxErrors - (r.errors.length + 1) < t.length := by
          rw [hu] at hun
          simp at hun
          omega
        have := ih { r with unqueried := t, errors := r.errors ++ ["query error"] }
          (by simpa using hf) (by simpa using hresp)
          (by simp; omega) (by simp; omega) (by simpa using ht)
        refine ⟨this.1, this.2.1, this.2.2.1, ?_⟩
        rw [this.2.2.2]
        simp [hu]
        omega

/-! ### Claims C1, C2, C3, C4 -/

/-- C1: upon successful termination of a Store operation (every Store RPC
confirms), at least `nReplicas` peers are in `Responded`, the operation is
Finished and Stored with `Errored()` false, no errors recorded, and
`FatalErr` nil — for every concurrency level from 1 up (in particular
1..configured), provided the search phase returned at least `nReplicas`
closest peers. -/
theorem storer_store_ok
    (c nR nME : Nat) (closest seeds : List Peer) (q : StoreQuerier)
    (hc : 1 ≤ c) (hm : 1 ≤ nME) (hq : ∀ p, q p = true)
    (hn : nR ≤ closest.length) :
    ∃ r, storerStore (fun _ => .ok closest) q ⟨nR, nME, c⟩ seeds = .ok r ∧
      Stored ⟨nR, nME, c⟩ r = true ∧
      Finished ⟨nR, nME, c⟩ r = true ∧
      Errored ⟨nR, nME, c⟩ r = false ∧
      r.errors = [] ∧ r.fatalErr = none ∧
      nR ≤ r.responded.length := by
  have h := storeLoop_of_true hq ⟨nR, nME, c⟩ hc hm closest.length
    { responded := [], unqueried := closest, errors := [], fatalErr := none }
    rfl rfl (by simpa using hn) (le_refl _)
  refine ⟨_, rfl, h.2.2, ?_, ?_, h.1, h.2.1, ?_⟩
  · simp [Finished, h.2.2]
  · simp [Errored, h.1, h.2.1]
    omega
  · have := h.2.2
    simpa [Stored] using this

/-- Witness for C1 at a concrete input: four closest peers, replication
target 3, error budget 3, concurrency 2, every query confirming. -/
theorem storer_store_ok_witness :
    ∃ r, storerStore (fun _ => .ok [1, 2, 3, 4]) (fun _ => true) ⟨3, 3, 2⟩ [] = .ok r ∧
      Stored ⟨3, 3, 2⟩ r = true ∧
      Finished ⟨3, 3, 2⟩ r = true ∧
      Errored ⟨3, 3, 2⟩ r = false ∧
      r.errors = [] ∧ r.fatalErr = none ∧
      3 ≤ r.responded.length :=
  storer_store_ok 2 3 3 [1, 2, 3, 4] [] (fun _ => true)
    (by decide) (by decide) (fun _ => rfl) (by decide)

/-- C2: when every Store RPC errors (and the search phase returned more than
`nMaxErrors` peers), the lookup terminates Errored with exactly `nMaxErrors`
recorded errors, is not Stored, not Exhausted, is Finished, has no
responders and no fatal error, and `storer.Store` itself returns nil
(modelled: `.ok`). -/
theorem storer_store_queryErr
    (nR nME : Nat) (closest seeds : List Peer) (q : StoreQuerier)
    (hq : ∀ p, q p = false) (hr : 1 ≤ nR) (hm : nME < closest.length) :
    ∃ r, storerStore (fun _ => .ok closest) q ⟨nR, nME, 1⟩ seeds = .ok r ∧
      Errored ⟨nR, nME, 1⟩ r = true ∧
      Stored ⟨nR, nME, 1⟩ r = false ∧
      Exhausted r = false ∧
      Finished ⟨nR, nME, 1⟩ r = true ∧
      r.errors.length = nME ∧ r.responded = [] ∧ r.fatalErr = none := by
  have h := storeLoop_of_false hq ⟨nR, nME, 1⟩ rfl closest.length
    { responded := [], unqueried := closest, errors := [], fatalErr := none }
    rfl (by simpa using hr) (by simp) (by simpa using Nat.le_of_lt hm)
    (by simpa using hm)
  refine ⟨_, rfl, ?_, ?_, ?_, ?_, h.1, h.2.1, h.2.2.1⟩
  · simp [Errored, h.1]
  · simp [Stored, h.2.1]
    omega
  · have := h.2.2.2
    simp at this
    simp [Exhausted, List.isEmpty_iff, ← List.length_pos]
    omega
  · simp [Finished, Errored, h.1]

/-- Witness for C2 at a concrete input: five closest peers, replication
target 3, error budget 3, every query timing out. -/
theorem storer_store_queryErr_witness :
    ∃ r, storerStore (fun _ => .ok [1, 2, 3, 4, 5]) (fun _ => false) ⟨3, 3, 1⟩ [] = .ok r ∧
      Errored ⟨3, 3, 1⟩ r = true ∧
      Stored ⟨3, 3, 1⟩ r = false ∧
      Exhausted r = false ∧
      Finished ⟨3, 3, 1⟩ r = true ∧
      r.errors.length = 3 ∧ r.responded = [] ∧ r.fatalErr = none :=
  storer_store_queryErr 3 3 [1, 2, 3, 4, 5] [] (fun _ => false)
    (fun _ => rfl) (by decide) (by decide)

/-- C3: if the remote peer's `StoreResponse` carries a `request_id` different
from the request's, `storer.query` returns a nil response together with the
`MismatchedRequestID` error — never the mismatched response. -/
theorem storer_query_mismatched_request_id
    (sig : String) (send : StoreRequest → Except String StoreResponse)
    (rq : StoreRequest) (rp : StoreResponse)
    (hs : send rq = .ok rp) (hne : rp.requestId ≠ rq.requestId) :
    storerQuery (.ok sig) send rq = (none, some "MismatchedRequestID") := by
  simp [storerQuery, hs, hne]

/-- Witness for C3 at a concrete input: a responder echoing request id 7
against a request with id 5. -/
theorem storer_query_mismatched_request_id_witness :
    storerQuery (.ok "sig") (fun _ => .ok ⟨7⟩) ⟨5⟩ = (none, some "MismatchedRequestID") :=
  storer_query_mismatched_request_id "sig" (fun _ => .ok ⟨7⟩) ⟨5⟩ ⟨7⟩ rfl (by decide)

/-- C4: if the wrapped Search errors, `storer.Store` surfaces that error to
its caller as a non-nil return value, for any seeds, querier and Store
parameters. -/
theorem storer_store_search_err
    (e : String) (search : List Peer → Except String (List Peer))
    (q : StoreQuerier) (p : Parameters) (seeds : List Peer)
    (hs : search seeds = .error e) :
    storerStore search q p seeds = .error e := by
  simp [storerStore, hs]

/-- Witness for C4 at a concrete input: a searcher that always fails. -/
theorem storer_store_search_err_witness :
    storerStore (fun _ => .error "some search error") (fun _ => true) ⟨3, 3, 3⟩ [] =
      .error "some search error" :=
  storer_store_search_err "some search error" (fun _ => .error "some search error")
    (fun _ => true) ⟨3, 3, 3⟩ [] rfl

/-! ## Signature contexts (spec §6.2)

Modelled from the spec: the implementation of
`libri/librarian/client/context.go` is not part of the repository fragment;
only its tests are.  Per §6.2, the transport attaches the base64 signature
in a metadata key `"signature"`; receivers reject requests with a missing
signature.  gRPC metadata is an association list from keys to value lists;
a context carries optional outgoing metadata (attached by the sender) and
optional incoming metadata (seen by the receiver). -/

/-- gRPC metadata: keys to lists of string values. -/
abbrev MD := List (String × List String)

/-- The metadata key under which the signed token travels. -/
def signatureKey : String := "signature"

/-- A context with its optional outgoing and incoming metadata. -/
structure SigContext where
  outgoingMD : Option MD
  incomingMD : Option MD
deriving Repr, DecidableEq

/-- `context.Background()`: no metadata attached. -/
def background : SigContext := ⟨none, none⟩

/-- `NewSignatureContext`: attach the signed token to the outgoing request
metadata under the `"signature"` key. -/
def NewSignatureContext (ctx : SigContext) (signedToken : String) : SigContext :=
  { ctx with outgoingMD := some [(signatureKey, [signedToken])] }

/-- `NewIncomingSignatureContext`: attach the signed token to the incoming
metadata, as the receiving server sees it. -/
def NewIncomingSignatureContext (ctx : SigContext) (signedToken : String) : SigContext :=
  { ctx with incomingMD := some [(signatureKey, [signedToken])] }

/-- `FromSignatureContext`: read the signed token from the incoming
metadata.  Returns Go's `(signedToken, err)` pair: the zero token with a
non-nil error when the metadata or the `"signature"` key is missing. -/
def FromSignatureContext (ctx : SigContext) : String × Option String :=
  match ctx.incomingMD with
  | none => ("", some "context unexpectedly missing metadata")
  | some md =>
    match md.lookup signatureKey with
    | none => ("", some "metadata unexpectedly missing signature")
    | some [] => ("", some "metadata unexpectedly missing signature")
    | some (t :: _) => (t, none)

/-! ### Claims C5 and C6 -/

/-- C5: attaching a signed token with `NewSignatureContext` places it in the
outgoing metadata under the `"signature"` key as a single-element value, and
the receiver-side round trip holds: `FromSignatureContext` after
`NewIncomingSignatureContext` with token `t` returns exactly `t` with nil
error. -/
theorem signature_context_roundtrip (ctx : SigContext) (t : String) :
    ((NewSignatureContext ctx t).outgoingMD.bind fun md => md.lookup signatureKey) =
      some [t] ∧
    FromSignatureContext (NewIncomingSignatureContext ctx t) = (t, none) := by
  constructor
  · simp [NewSignatureContext, List.lookup]
  · simp [FromSignatureContext, NewIncomingSignatureContext, List.lookup]

/-- C6: an incoming context with no metadata, or with metadata lacking the
`"signature"` key, is rejected by `FromSignatureContext`: the zero (empty)
token together with a non-nil error. -/
theorem from_signature_context_rejects (ctx : SigContext)
    (h : ctx.incomingMD = none ∨
      ∃ md, ctx.incomingMD = some md ∧ md.lookup signatureKey = none) :
    (FromSignatureContext ctx).1 = "" ∧ (FromSignatureContext ctx).2 ≠ none := by
  rcases h with hnone | ⟨md, hmd, hlk⟩
  · simp [FromSignatureContext, hnone]
  · simp [FromSignatureContext, hmd, hlk]

/-- Witness for C6 at concrete inputs: `context.Background()` (no metadata)
and a context carrying empty metadata without the signature key. -/
theorem from_signature_context_rejects_witness :
    ((FromSignatureContext background).1 = "" ∧
      (FromSignatureContext background).2 ≠ none) ∧
    ((FromSignatureContext ⟨none, some []⟩).1 = "" ∧
      (FromSignatureContext ⟨none, some []⟩).2 ≠ none) :=
  ⟨from_signature_context_rejects background (Or.inl rfl),
   from_signature_context_rejects ⟨none, some []⟩ (Or.inr ⟨[], rfl, rfl⟩)⟩

/-! ## Author healthcheck (`libri/author/author.go`)

`Author.Healthcheck` iterates over the librarian health clients; each check
runs under a fresh context with the `healthcheckTimeout` (2 s) deadline.  An
errored check records status UNKNOWN and clears `allHealthy`; a successful
check records the reported status be it SERVING or not, clearing
`allHealthy` unless the status is SERVING.  A health client is modelled as a
function from the timeout it is given to its `Check` outcome. -/

/-- gRPC health serving status. -/
inductive ServingStatus where
  | UNKNOWN
  | SERVING
  | NOT_SERVING
deriving Repr, DecidableEq

/-- `healthcheckTimeout`, in seconds. -/
def healthcheckTimeout : Nat := 2

/-- A librarian health client: timeout (seconds) to `Check` outcome. -/
abbrev HealthClient := Nat → Except String ServingStatus

/-- One iteration of the healthcheck loop over `(address, client)`. -/
def healthcheckStep (acc : Bool × List (String × ServingStatus))
    (e : String × HealthClient) : Bool × List (String × ServingStatus) :=
  match e.2 healthcheckTimeout with
  | .error _ => (false, acc.2 ++ [(e.1, ServingStatus.UNKNOWN)])
  | .ok st => (acc.1 && decide (st = ServingStatus.SERVING), acc.2 ++ [(e.1, st)])

/-- `Author.Healthcheck`: returns `allHealthy` and the per-address status
report. -/
def Healthcheck (healths : List (String × HealthClient)) :
    Bool × List (String × ServingStatus) :=
  healths.foldl healthcheckStep (true, [])

/-- The status recorded for one librarian: UNKNOWN if its check errors,
otherwise the reported status. -/
def checkStatus (e : String × HealthClient) : ServingStatus :=
  match e.2 healthcheckTimeout with
  | .error _ => ServingStatus.UNKNOWN
  | .ok st => st

/-- Whether one librarian's check (at the configured timeout) reports
SERVING. -/
def isServing (e : String × HealthClient) : Bool :=
  match e.2 healthcheckTimeout with
  | .ok ServingStatus.SERVING => true
  | _ => false

lemma isServing_eq_true (e : String × HealthClient) :
    isServing e = true ↔ e.2 healthcheckTimeout = .ok ServingStatus.SERVING := by
  cases hchk : e.2 healthcheckTimeout with
  | error msg => simp [isServing, hchk]
  | ok st => cases st <;> simp [isServing, hchk]

lemma healthcheck_foldl (healths : List (String × HealthClient)) :
    ∀ (b : Bool) (l : List (String × ServingStatus)),
      healths.foldl healthcheckStep (b, l) =
        (b && healths.all isServing,
         l ++ healths.map fun e => (e.1, checkStatus e)) := by
  induction healths with
  | nil => intro b l; simp
  | cons e t ih =>
    intro b l
    rw [List.foldl_cons]
    cases hchk : e.2 healthcheckTimeout with
    | error msg =>
      rw [show healthcheckStep (b, l) e = (false, l ++ [(e.1, ServingStatus.UNKNOWN)]) by
        simp [healthcheckStep, hchk]]
      rw [ih]
      have hsv : isServing e = false := by simp [isServing, hchk]
      simp [List.all_cons, hsv, checkStatus, hchk]
    | ok st =>
      rw [show healthcheckStep (b, l) e =
          (b && decide (st = ServingStatus.SERVING), l ++ [(e.1, st)]) by
        simp [healthcheckStep, hchk]]
      rw [ih]
      have hsv : isServing e = decide (st = ServingStatus.SERVING) := by
        cases st <;> simp [isServing, hchk]
      simp [List.all_cons, hsv, Bool.and_assoc, checkStatus, hchk]

/-! ### Claim C7 -/

/-- C7: every health check runs under the 2-second `healthcheckTimeout`;
`Healthcheck` returns `allHealthy = true` iff every configured librarian's
check (at that timeout) succeeds with status SERVING; and a librarian whose
check errors is reported with status UNKNOWN. -/
theorem healthcheck_spec :
    healthcheckTimeout = 2 ∧
    ∀ healths : List (String × HealthClient),
      ((Healthcheck healths).1 = true ↔
        ∀ e ∈ healths, e.2 healthcheckTimeout = .ok ServingStatus.SERVING) ∧
      (∀ e ∈ healths, ∀ msg, e.2 healthcheckTimeout = .error msg →
        (e.1, ServingStatus.UNKNOWN) ∈ (Healthcheck healths).2) := by
  refine ⟨rfl, fun healths => ?_⟩
  rw [show Healthcheck healths = healths.foldl healthcheckStep (true, []) from rfl,
    healthcheck_foldl]
  constructor
  · simp only [Bool.true_and, List.all_eq_true]
    constructor
    · intro h e he
      exact (isServing_eq_true e).mp (h e he)
    · intro h e he
      exact (isServing_eq_true e).mpr (h e he)
  · intro e he msg hmsg
    simp only [List.nil_append, List.mem_map]
    exact ⟨e, he, by simp [checkStatus, hmsg]⟩

/-- Witness for C7 at a concrete input: one serving librarian, one not
serving, one whose check errors. -/
theorem healthcheck_spec_witness :
    ((Healthcheck [("a", fun _ => .ok ServingStatus.SERVING),
        ("b", fun _ => .error "unreachable")]).1 = true ↔
      ∀ e ∈ [(("a" : String), fun _ => (.ok ServingStatus.SERVING : Except String ServingStatus)),
        ("b", fun _ => .error "unreachable")],
        e.2 healthcheckTimeout = .ok ServingStatus.SERVING) ∧
    ("b", ServingStatus.UNKNOWN) ∈
      (Healthcheck [("a", fun _ => .ok ServingStatus.SERVING),
        ("b", fun _ => .error "unreachable")]).2 :=
  ⟨(healthcheck_spec.2 _).1,
   (healthcheck_spec.2 _).2 ("b", fun _ => .error "unreachable") (by simp) "unreachable" rfl⟩

/-! ## Subscription bloom filters (`libri/common/subscribe/filter.go`)

`newFilter` builds a `willf/bloom` filter over the given elements.  The
external bloom library is modelled in the standard way: a filter has `m`
bits (at least 1, as `bloom.New` clamps) and `k` hash functions; `Add`
sets the `k` bit locations `hash_i(e) mod m` of the element and `Test`
checks that they are all set.  The hash family and the size-estimation
formula of `bloom.NewWithEstimates` (floating-point, irrelevant to the
claims) are abstracted as parameters.  Byte strings are `List Nat`. -/

/-- An indexed family of hash functions on byte strings. -/
abbrev HashFamily := Nat → List Nat → Nat

/-- A bloom filter: `m` bits, `k` hash functions, and the set bit indices. -/
structure BloomFilter where
  m : Nat
  k : Nat
  bits : List Nat
deriving Repr, DecidableEq

/-- The `k` bit locations of an element. -/
def BloomFilter.locations (hash : HashFamily) (f : BloomFilter) (e : List Nat) :
    List Nat :=
  (List.range f.k).map fun i => hash i e % f.m

/-- `BloomFilter.Add`: set the element's bit locations. -/
def BloomFilter.add (hash : HashFamily) (f : BloomFilter) (e : List Nat) :
    BloomFilter :=
  { f with bits := f.bits ++ f.locations hash e }

/-- `BloomFilter.Test`: all of the element's bit locations are set. -/
def BloomFilter.test (hash : HashFamily) (f : BloomFilter) (e : List Nat) : Bool :=
  (f.locations hash e).all fun loc => decide (loc ∈ f.bits)

/-- `bloom.New(m, k)`: empty filter; the library clamps both sizes to at
least 1. -/
def bloomNew (m k : Nat) : BloomFilter :=
  ⟨max 1 m, max 1 k, []⟩

/-- `alwaysInFilter()`: a 1-bit, 1-hash filter with its single bit set (the
added element could be anything; the source uses `[]byte{1}`). -/
def alwaysInFilter (hash : HashFamily) : BloomFilter :=
  (bloomNew 1 1).add hash [1]

/-- `api.ECPubKeyLength`: length in bytes of a marshalled P-256 public key
(spec §4.8), used for the random padding elements. -/
def ECPubKeyLength : Nat := 65

/-- `api.RandBytes(rng, n)`: `n` pseudo-random bytes.  The source of
randomness is a byte stream `rng`; `call` distinguishes successive calls. -/
def RandBytes (rng : Nat → Nat) (call n : Nat) : List Nat :=
  (List.range n).map fun i => rng (call * n + i) % 256

/-- `minFilterElements`: the minimum number of elements a filter is sized
for. -/
def minFilterElements : Nat := 10

/-- The padding loop of `newFilter`: append random public-key-length byte
strings until the element list has at least `minFilterElements` entries. -/
def padElements (rng : Nat → Nat) (elements : List (List Nat)) :
    List (List Nat) :=
  elements ++ (List.range (minFilterElements - elements.length)).map
    fun j => RandBytes rng (elements.length + j) ECPubKeyLength

/-- `newFilter(elements, fp, rng)`: the always-in filter when `fp == 1.0`;
otherwise pad the elements, size the filter by `bloom.NewWithEstimates`
(abstracted as `estimate`), and add every padded element. -/
def newFilter (hash : HashFamily) (estimate : Nat → ℚ → Nat × Nat)
    (elements : List (List Nat)) (fp : ℚ) (rng : Nat → Nat) : BloomFilter :=
  if fp = 1 then alwaysInFilter hash
  else
    let padded := padElements rng elements
    let mk := estimate padded.length fp
    padded.foldl (fun g x => g.add hash x) (bloomNew mk.1 mk.2)

/-! ### Lemmas about bloom filters -/

lemma foldl_add_m (hash : HashFamily) (l : List (List Nat)) :
    ∀ f : BloomFilter, (l.foldl (fun g x => g.add hash x) f).m = f.m ∧
      (l.foldl (fun g x => g.add hash x) f).k = f.k ∧
      ∀ b ∈ f.bits, b ∈ (l.foldl (fun g x => g.add hash x) f).bits := by
  induction l with
  | nil => intro f; exact ⟨rfl, rfl, fun b hb => hb⟩
  | cons x t ih =>
    intro f
    rw [List.foldl_cons]
    refine ⟨(ih _).1, (ih _).2.1, fun b hb => (ih _).2.2 b ?_⟩
    simp [BloomFilter.add, hb]

lemma locations_congr (hash : HashFamily) {f g : BloomFilter}
    (hm : f.m = g.m) (hk : f.k = g.k) (e : List Nat) :
    f.locations hash e = g.locations hash e := by
  simp [BloomFilter.locations, hm, hk]

lemma foldl_add_test (hash : HashFamily) :
    ∀ (l : List (List Nat)) (f : BloomFilter) (e : List Nat), e ∈ l →
      (l.foldl (fun g x => g.add hash x) f).test hash e = true := by
  intro l
  induction l with
  | nil => intro f e he; simp at he
  | cons x t ih =>
    intro f e he
    rw [List.foldl_cons]
    rcases List.mem_cons.mp he with heq | het
    · subst heq
      have hspec := foldl_add_m hash t (f.add hash e)
      rw [BloomFilter.test, List.all_eq_true]
      intro loc hloc
      rw [locations_congr hash hspec.1 hspec.2.1 e] at hloc
      have hin : loc ∈ (f.add hash e).bits := by
        have : (f.add hash e).locations hash e = f.locations hash e := rfl
        rw [this] at hloc
        simp [BloomFilter.add, hloc]
      simpa using hspec.2.2 loc hin
    · exact ih (f.add hash x) e het

/-! ### Claims C8 and C9 -/

/-- C8: with false-positive rate exactly 1.0, `newFilter` returns the
always-in filter — the element list is ignored entirely — and membership
testing on it answers true for every queried element. -/
theorem newFilter_fp_one_always_in (hash : HashFamily)
    (estimate : Nat → ℚ → Nat × Nat) (elements : List (List Nat)) (fp : ℚ)
    (rng : Nat → Nat) (e : List Nat) (hfp : fp = 1) :
    newFilter hash estimate elements fp rng = alwaysInFilter hash ∧
    (newFilter hash estimate elements fp rng).test hash e = true := by
  constructor
  · simp [newFilter, hfp]
  · simp [newFilter, hfp, alwaysInFilter, bloomNew, BloomFilter.add,
      BloomFilter.test, BloomFilter.locations, Nat.mod_one]

/-- Witness for C8 at a concrete input: a two-element list, a trivial hash
family and byte stream, `fp = 1`, queried on an element not in the list. -/
theorem newFilter_fp_one_always_in_witness :
    newFilter (fun _ _ => 0) (fun _ _ => (4, 2)) [[1, 2], [3]] 1 (fun _ => 0) =
      alwaysInFilter (fun _ _ => 0) ∧
    (newFilter (fun _ _ => 0) (fun _ _ => (4, 2)) [[1, 2], [3]] 1
      (fun _ => 0)).test (fun _ _ => 0) [9, 9] = true :=
  newFilter_fp_one_always_in (fun _ _ => 0) (fun _ _ => (4, 2)) [[1, 2], [3]] 1
    (fun _ => 0) [9, 9] rfl

/-- C9: with `fp < 1.0` (here: `fp ≠ 1.0`, the branch the code takes), the
element list is padded with random public-key-length byte strings to at
least `minFilterElements = 10` entries before sizing, every supplied
element is added, and membership testing answers true for each supplied
element — no false negatives at the interface. -/
theorem newFilter_no_false_negatives (hash : HashFamily)
    (estimate : Nat → ℚ → Nat × Nat) (elements : List (List Nat)) (fp : ℚ)
    (rng : Nat → Nat) (e : List Nat) (hfp : fp ≠ 1) (he : e ∈ elements) :
    (newFilter hash estimate elements fp rng).test hash e = true ∧
    (padElements rng elements).length = max minFilterElements elements.length ∧
    (∃ pads, padElements rng elements = elements ++ pads ∧
      ∀ x ∈ pads, x.length = ECPubKeyLength) := by
  refine ⟨?_, ?_, ?_⟩
  · rw [newFilter, if_neg hfp]
    exact foldl_add_test hash _ _ e (List.mem_append_left _ he)
  · rw [padElements]
    simp
    omega
  · refine ⟨_, rfl, fun x hx => ?_⟩
    rcases List.mem_map.mp hx with ⟨j, _, hj⟩
    rw [← hj]
    simp [RandBytes]

/-- Witness for C9 at a concrete input: a single supplied element, a
trivial hash family and byte stream, `fp = 1/2`. -/
theorem newFilter_no_false_negatives_witness :
    (newFilter (fun _ _ => 0) (fun _ _ => (8, 2)) [[7]] (1 / 2)
      (fun _ => 3)).test (fun _ _ => 0) [7] = true ∧
    (padElements (fun _ => 3) [[7]]).length = max minFilterElements 1 ∧
    (∃ pads, padElements (fun _ => 3) [[7]] = [[7]] ++ pads ∧
      ∀ x ∈ pads, x.length = ECPubKeyLength) := by
  have h := newFilter_no_false_negatives (fun _ _ => 0) (fun _ _ => (8, 2)) [[7]]
    (1 / 2) (fun _ => 3) [7] (by norm_num) (by simp)
  simpa using h

/-! ## Entry info (`libri/author/author.go`, `getEntryInfo`)

`getEntryInfo` extracts an entry's key and page count.  The extractors
`api.GetKey` and `api.GetEntryPageKeys` live outside the repository
fragment and are abstracted as fallible functions on documents. -/

/-- An opaque document. -/
abbrev Document := Nat

/-- An opaque 32-byte id. -/
abbrev EntryKey := Nat

/-- `getEntryInfo(entry)`: the entry key and the number of pages; zero page
keys is reported as a single-page entry. -/
def getEntryInfo (getKey : Document → Except String EntryKey)
    (getPageKeys : Document → Except String (List EntryKey))
    (entry : Document) : Except String (EntryKey × Nat) :=
  match getKey entry with
  | .error e => .error e
  | .ok entryKey =>
    match getPageKeys entry with
    | .error e => .error e
    | .ok pageKeys =>
      if 0 < pageKeys.length then .ok (entryKey, pageKeys.length)
      else .ok (entryKey, 1)

lemma getEntryInfo_err_key (getKey : Document → Except String EntryKey)
    (getPageKeys : Document → Except String (List EntryKey))
    (entry : Document) (e : String) (hk : getKey entry = .error e) :
    getEntryInfo getKey getPageKeys entry = .error e := by
  unfold getEntryInfo
  simp only [hk]

lemma getEntryInfo_err_pages (getKey : Document → Except String EntryKey)
    (getPageKeys : Document → Except String (List EntryKey))
    (entry : Document) (entryKey : EntryKey) (e : String)
    (hk : getKey entry = .ok entryKey) (hp : getPageKeys entry = .error e) :
    getEntryInfo getKey getPageKeys entry = .error e := by
  unfold getEntryInfo
  simp only [hk, hp]

lemma getEntryInfo_ok (getKey : Document → Except String EntryKey)
    (getPageKeys : Document → Except String (List EntryKey))
    (entry : Document) (entryKey : EntryKey) (pageKeys : List EntryKey)
    (hk : getKey entry = .ok entryKey) (hp : getPageKeys entry = .ok pageKeys) :
    getEntryInfo getKey getPageKeys entry =
      if 0 < pageKeys.length then .ok (entryKey, pageKeys.length)
      else .ok (entryKey, 1) := by
  unfold getEntryInfo
  simp only [hk, hp]

/-! ### Claim C10 -/

/-- C10: whenever `getEntryInfo` accepts an entry, the returned page count
is at least 1; it equals the number of page keys when that number is
positive, and zero page keys is reported as count 1. -/
theorem getEntryInfo_page_count (getKey : Document → Except String EntryKey)
    (getPageKeys : Document → Except String (List EntryKey))
    (entry : Document) (key : EntryKey) (n : Nat)
    (h : getEntryInfo getKey getPageKeys entry = .ok (key, n)) :
    1 ≤ n ∧ ∀ pks, getPageKeys entry = .ok pks →
      (0 < pks.length → n = pks.length) ∧ (pks.length = 0 → n = 1) := by
  rcases hk : getKey entry with e | entryKey
  · rw [getEntryInfo_err_key getKey getPageKeys entry e hk] at h
    exact absurd h (by simp)
  · rcases hp : getPageKeys entry with e | pageKeys
    · rw [getEntryInfo_err_pages getKey getPageKeys entry entryKey e hk hp] at h
      exact absurd h (by simp)
    · rw [getEntryInfo_ok getKey getPageKeys entry entryKey pageKeys hk hp] at h
      by_cases hlen : 0 < pageKeys.length
      · rw [if_pos hlen] at h
        simp only [Except.ok.injEq, Prod.mk.injEq] at h
        obtain ⟨-, hn⟩ := h
        refine ⟨by omega, fun pks hpks => ?_⟩
        have hpe : pks = pageKeys := by simpa using hpks.symm
        subst hpe
        exact ⟨fun _ => hn.symm, fun hz => by omega⟩
      · rw [if_neg hlen] at h
        simp only [Except.ok.injEq, Prod.mk.injEq] at h
        obtain ⟨-, hn⟩ := h
        refine ⟨by omega, fun pks hpks => ?_⟩
        have hpe : pks = pageKeys := by simpa using hpks.symm
        subst hpe
        exact ⟨fun hpos => absurd hpos hlen, fun _ => hn.symm⟩

/-- Witness for C10 at a concrete input: an entry with zero page keys is
reported as a single-page entry. -/
theorem getEntryInfo_page_count_witness :
    1 ≤ 1 ∧ ∀ pks, (fun _ => (.ok [] : Except String (List EntryKey))) (42 : Document) = .ok pks →
      (0 < pks.length → 1 = pks.length) ∧ (pks.length = 0 → 1 = 1) :=
  getEntryInfo_page_count (fun _ => .ok 7) (fun _ => .ok []) 42 7 1 rfl

end Libri
